import Mathlib

/-!
Verification of `pyuploadcare/file.py`: a shallow embedding of the `File`
and `FileGroup` classes.  Strings are modelled as Lean `String`s (lists of
characters), the injected `ucare` collaborator and the HTTP world are
modelled as an explicit environment of responses, wall-clock time is
modelled in discrete tenths of a second (one tick per `time.sleep(0.1)`),
and each method is a state-passing function that also records the network
requests it issues.
-/

deriving instance DecidableEq for Except

namespace Uploadcare

/-- The two exception kinds raised by the module (`InvalidRequestError`,
`TimeoutError`), plus the `AttributeError` escape of `__getattr__` for
non-matching names. -/
inductive Err where
  | invalidRequest
  | timeout
  | attrError
  deriving DecidableEq, Repr

/-- A network request issued by a handle: `PUT`/`GET` carry an API path,
`HEAD` carries a CDN URL. -/
inductive Event where
  | putE (path : String)
  | getE (path : String)
  | headE (url : String)
  deriving DecidableEq, Repr

/-- The file-metadata record returned by `GET /files/<uuid>/`; the fields
the source reads (`on_s3`, `last_keep_claim`, `removed`,
`original_file_url`, `uuid`). -/
structure Info where
  on_s3 : Bool
  last_keep_claim : Option String
  removed : Option String
  original_file_url : Option String
  uuid : String
  deriving DecidableEq, Repr, Inhabited

/-- The environment: the injected `ucare` collaborator plus the HTTP
world.  `getResp n` is the body of the n-th `GET /files/…/` request this
handle makes, `headResp n` the status code of its n-th `HEAD` probe, and
`cdnBase` is `ucare.cdn_base`. -/
structure Env where
  getResp : Nat → Info
  headResp : Nat → Nat
  cdnBase : String

/-- The state of a `File` handle: the parsed identity fields, the caches
(`_info`, `_cached_url`), and the observable history (request counters,
the trace of issued requests most-recent-first, and the clock in tenths
of a second advanced by each `time.sleep(0.1)`). -/
structure FileSt where
  file_id : String
  default_effects : Option String
  cached_url : Option String
  info : Option Info
  gets : Nat
  puts : Nat
  heads : Nat
  clock : Nat
  trace : List Event
  deriving DecidableEq, Repr

/- ### The UUID regular expression

`UUID_WITH_EFFECTS_REGEX` matches `[a-z0-9]{8}-([a-z0-9]{4}-){3}[a-z0-9]{12}`
optionally followed by the slash-dash-slash separator and a greedy
`effects` group.  The UUID part is a
fixed-length deterministic pattern: 36 character slots with dashes at
offsets 8, 13, 18 and 23. -/

/-- `[a-z0-9]` character class. -/
def isLowerAlnum (c : Char) : Bool :=
  (('a' ≤ c && c ≤ 'z') || ('0' ≤ c && c ≤ '9'))

/-- One slot of the fixed-length UUID pattern. -/
inductive Slot where
  | dash
  | alnum
  deriving DecidableEq, Repr

/-- Whether a character matches a slot. -/
def slotOk : Slot → Char → Bool
  | .dash, c => c = '-'
  | .alnum, c => isLowerAlnum c

/-- The 36-slot UUID pattern `[a-z0-9]{8}-([a-z0-9]{4}-){3}[a-z0-9]{12}`. -/
def uuidPattern : List Slot :=
  List.replicate 8 .alnum ++ [.dash] ++
  List.replicate 4 .alnum ++ [.dash] ++
  List.replicate 4 .alnum ++ [.dash] ++
  List.replicate 4 .alnum ++ [.dash] ++
  List.replicate 12 .alnum

/-- Anchored match of a slot pattern at the head of a character list;
returns the consumed characters and the remaining ones. -/
def matchSlots : List Slot → List Char → Option (List Char × List Char)
  | [], cs => some ([], cs)
  | _ :: _, [] => none
  | p :: ps, c :: cs =>
    if slotOk p c then
      match matchSlots ps cs with
      | some (m, r) => some (c :: m, r)
      | none => none
    else none

/-- `patOk ps m`: the characters `m` match the pattern `ps` exactly
(equal lengths, every slot satisfied). -/
def patOk : List Slot → List Char → Bool
  | [], [] => true
  | p :: ps, c :: cs => slotOk p c && patOk ps cs
  | _, _ => false

/-- A string is a (lowercase) UUID iff it matches the full 36-slot
pattern exactly. -/
def isUUID (s : String) : Bool :=
  patOk uuidPattern s.data

/-- Leftmost search for the UUID pattern, as `re.search` does: try an
anchored match at each position from the left; on success return the
matched characters and the rest of the input after them. -/
def uuidSearch : List Char → Option (List Char × List Char)
  | [] => none
  | c :: cs =>
    match matchSlots uuidPattern (c :: cs) with
    | some mr => some mr
    | none => uuidSearch cs

/-- `.*` without `re.DOTALL`: the rest of the current line (greedy, stops
at a newline). -/
def takeLine (cs : List Char) : List Char :=
  cs.takeWhile (fun c => c ≠ '\n')

/-- The full `UUID_WITH_EFFECTS_REGEX` search: the leftmost UUID match,
and the `effects` group when the UUID is immediately followed by the
slash-dash-slash separator. -/
def fileParse (cs : List Char) : Option (List Char × Option (List Char)) :=
  match uuidSearch cs with
  | none => none
  | some (u, rest) =>
    match rest with
    | '/' :: '-' :: '/' :: tail => some (u, some (takeLine tail))
    | _ => some (u, none)

/-- `cdn_url_or_file_id.startswith('http')`. -/
def startsHttp (cs : List Char) : Bool :=
  match cs with
  | 'h' :: 't' :: 't' :: 'p' :: _ => true
  | _ => false

/-- `File.__init__`: search for the UUID-with-effects pattern, fail with
`InvalidRequest` when absent, otherwise record `file_id`, the optional
`default_effects`, and cache the input as `_cached_url` when it starts
with `http`. -/
def fileFromString (s : String) : Except Err FileSt :=
  match fileParse s.data with
  | none => .error .invalidRequest
  | some (u, e) =>
    .ok { file_id := String.mk u
        , default_effects := e.map String.mk
        , cached_url := if startsHttp s.data then some s else none
        , info := none
        , gets := 0, puts := 0, heads := 0, clock := 0, trace := [] }

/- ### File state transitions -/

/-- `api_uri` property: `/files/<file_id>/`. -/
def apiUri (s : FileSt) : String :=
  "/files/" ++ s.file_id ++ "/"

/-- `storage_uri` property: `/files/<file_id>/storage/`. -/
def storageUri (s : FileSt) : String :=
  "/files/" ++ s.file_id ++ "/storage/"

/-- `cdn_url` property: `<cdn_base><uuid>`, then the slash-dash-slash
separator and `<effects>` when `default_effects` is truthy (non-`None`,
non-empty), else just a trailing slash.  Pure string composition. -/
def cdnUrl (cdnBase : String) (s : FileSt) : String :=
  match s.default_effects with
  | some e => if e = "" then cdnBase ++ s.file_id ++ "/"
              else cdnBase ++ s.file_id ++ "/-/" ++ e
  | none => cdnBase ++ s.file_id ++ "/"

/-- `update_info()`: issue `GET <api_uri>` and replace `_info` wholesale
with the response. -/
def updateInfoSt (env : Env) (s : FileSt) : FileSt :=
  { s with info := some (env.getResp s.gets)
         , gets := s.gets + 1
         , trace := .getE (apiUri s) :: s.trace }

/-- The lazy `info` property: return the cached `_info`, fetching it
first when absent. -/
def infoLazy (env : Env) (s : FileSt) : Info × FileSt :=
  match s.info with
  | some i => (i, s)
  | none => (env.getResp s.gets, updateInfoSt env s)

/-- Issue `PUT <path>` (response discarded, as in `File.store`). -/
def recordPut (path : String) (s : FileSt) : FileSt :=
  { s with puts := s.puts + 1, trace := .putE path :: s.trace }

/-- Issue a `HEAD <cdn_url>` probe, returning its status code. -/
def recordHead (env : Env) (s : FileSt) : Nat × FileSt :=
  (env.headResp s.heads,
   { s with heads := s.heads + 1
          , trace := .headE (cdnUrl env.cdnBase s) :: s.trace })

/-- `time.sleep(0.1)`: advance the clock by one tenth of a second. -/
def sleepTenth (s : FileSt) : FileSt :=
  { s with clock := s.clock + 1 }

/-- The condition `self.is_on_s3 and self.is_stored` of the `store`
polling loop: `info['on_s3']` truthy and `info['last_keep_claim']`
non-`None`. -/
def storedCond (i : Info) : Bool :=
  i.on_s3 && i.last_keep_claim.isSome

/-- The `while not (self.is_on_s3 and self.is_stored)` loop of
`File.store(wait=True)`: evaluate the condition (a lazy `info` access),
then check the wall-clock deadline (strictly greater than `timeout`),
then refresh and sleep 100ms.  `start` is `time_started`, `T` the
timeout, both in tenths of a second.  The loop is written with explicit
fuel for structural recursion; its caller passes `T + 2`, which strictly
exceeds the `T + 1` sleeps any run can make before the deadline check
fires, so the zero-fuel branch is never reached. -/
def storeLoop (env : Env) (start T : Nat) :
    Nat → FileSt → Except (Err × FileSt) FileSt
  | 0, s => .error (.timeout, s)
  | fuel + 1, s =>
    match infoLazy env s with
    | (i, s1) =>
      if storedCond i then .ok s1
      else if s1.clock - start > T then .error (.timeout, s1)
      else storeLoop env start T fuel (sleepTenth (updateInfoSt env s1))

/-- The `while True` loop of `ensure_on_cdn`: check the deadline, issue
a `HEAD` probe to `cdn_url`, return on status 200, else sleep 100ms and
retry.  Fuel as in `storeLoop`: the caller passes `T + 2`, which the
deadline check keeps from ever running out. -/
def cdnLoop (env : Env) (start T : Nat) :
    Nat → FileSt → Except (Err × FileSt) FileSt
  | 0, s => .error (.timeout, s)
  | fuel + 1, s =>
    if s.clock - start > T then .error (.timeout, s)
    else
      match recordHead env s with
      | (code, s1) =>
        if code = 200 then .ok s1
        else cdnLoop env start T fuel (sleepTenth s1)

/-- `File.ensure_on_cdn(timeout)`: fail with `InvalidRequest` unless
`is_on_s3`, fail with `InvalidRequest` unless `is_stored`, then poll the
CDN with `HEAD` requests until 200 or the deadline. -/
def ensureOnCdn (env : Env) (s : FileSt) (T : Nat) :
    Except (Err × FileSt) FileSt :=
  let p := infoLazy env s
  if !p.1.on_s3 then .error (.invalidRequest, p.2)
  else
    let q := infoLazy env p.2
    if q.1.last_keep_claim.isNone then .error (.invalidRequest, q.2)
    else cdnLoop env q.2.clock T (T + 2) q.2

/-- `File.store(wait, timeout)`: issue `PUT <storage_uri>`; when `wait`,
run the polling loop and then `ensure_on_cdn()` with its own default
5-second timeout; always finish with one `update_info()`. -/
def store (env : Env) (s : FileSt) (wait : Bool) (T : Nat) :
    Except (Err × FileSt) FileSt :=
  let s1 := recordPut (storageUri s) s
  if wait then
    match storeLoop env s1.clock T (T + 2) s1 with
    | .error e => .error e
    | .ok s2 =>
      match ensureOnCdn env s2 50 with
      | .error e => .error e
      | .ok s3 => .ok (updateInfoSt env s3)
  else .ok (updateInfoSt env s1)

/- ### url / serialize -/

/-- Python truthiness of an optional string: `None` and `""` are falsy. -/
def strTruthy : Option String → Bool
  | none => false
  | some t => t ≠ ""

/-- The `url` property: return `_cached_url` when truthy, else
`info['original_file_url']` (a lazy `info` access that may fetch). -/
def urlProp (env : Env) (s : FileSt) : Option String × FileSt :=
  if strTruthy s.cached_url then (s.cached_url, s)
  else
    let p := infoLazy env s
    (p.1.original_file_url, p.2)

/-- `File.serialize()`: `if self._info and self.url: return self.url`,
else return the bare `file_id`.  The condition evaluates the `url`
property once and the `return` evaluates it a second time, exactly as the
source does. -/
def serialize (env : Env) (s : FileSt) : String × FileSt :=
  if s.info.isSome then
    let p := urlProp env s
    if strTruthy p.1 then
      let q := urlProp env p.2
      (q.1.getD "", q.2)
    else (s.file_id, p.2)
  else (s.file_id, s)

/- ### cropped / resized and the dynamic dimension accessors -/

/-- Python `str()` of an integer. -/
def intStr (n : Int) : String :=
  if n < 0 then "-" ++ toString n.natAbs else toString n.natAbs

/-- Python truthiness of an optional integer: `None` and `0` are falsy. -/
def intTruthy : Option Int → Bool
  | none => false
  | some n => n ≠ 0

/-- Numeric value of a digit list (most significant first). -/
def digitsVal (cs : List Char) : Nat :=
  cs.foldl (fun a c => 10 * a + (c.toNat - 48)) 0

/-- Body of a Python 2 decimal integer literal after the optional sign:
one or more digits.  (The source uses `ur''` string literals, so it runs
on Python 2, whose `int()` has no underscore grouping.) -/
def intBody (cs : List Char) : Bool :=
  !cs.isEmpty && cs.all Char.isDigit

/-- Characters Python's `int()` strips around the literal. -/
def isPySpace (c : Char) : Bool :=
  c = ' ' || c = '\t' || c = '\n' || c = '\x0d' || c = '\x0b' || c = '\x0c'

/-- Python 2 `int(str)`: strip surrounding whitespace, accept an optional
sign followed by one or more digits, reject anything else (in particular
`ValueError` on underscore-grouped digits such as `1_0`). -/
def pyInt (cs : List Char) : Option Int :=
  let t := (cs.dropWhile isPySpace).reverse.dropWhile isPySpace |>.reverse
  match t with
  | '-' :: rest =>
    if intBody rest then some (-(digitsVal rest : Int)) else none
  | '+' :: rest =>
    if intBody rest then some ((digitsVal rest : Int)) else none
  | rest =>
    if intBody rest then some ((digitsVal rest : Int)) else none

/-- `str.partition('x')`: the part before the first `x` and the part
after it (empty when there is no `x`, matching how the source only ever
tests the parts for truthiness). -/
def partitionX : List Char → List Char × List Char
  | [] => ([], [])
  | c :: cs =>
    if c = 'x' then ([], cs)
    else
      let p := partitionX cs
      (c :: p.1, p.2)

/-- `File.cropped(width, height)`: fail with `InvalidRequest` unless both
dimensions are truthy (given and non-zero), else return the `cdn_url`
followed by the crop directive `crop/<w>x<h>/`. -/
def cropped (cdnBase : String) (s : FileSt) (w h : Option Int) :
    Except Err String :=
  if !intTruthy w || !intTruthy h then .error .invalidRequest
  else
    .ok (cdnUrl cdnBase s ++ "-/crop/" ++ intStr (w.getD 0) ++ "x" ++
         intStr (h.getD 0) ++ "/")

/-- `File.resized(width, height)`: fail with `InvalidRequest` unless at
least one dimension is truthy; the dimension string is `<w>`, `x<h>` or
`<w>x<h>`. -/
def resized (cdnBase : String) (s : FileSt) (w h : Option Int) :
    Except Err String :=
  if !intTruthy w && !intTruthy h then .error .invalidRequest
  else
    .ok (cdnUrl cdnBase s ++ "-/resize/" ++
         (if intTruthy w then intStr (w.getD 0) else "") ++
         (if intTruthy h then "x" ++ intStr (h.getD 0) else "") ++ "/")

/-- One component of a dimension accessor name:
`int(width) if width else None`, raising `InvalidRequest` when the
non-empty component does not parse as an integer. -/
def compParse (cs : List Char) : Except Err (Option Int) :=
  if cs.isEmpty then .ok none
  else
    match pyInt cs with
    | some n => .ok (some n)
    | none => .error .invalidRequest

/-- `File.__getattr__`: names starting with `resized_` or `cropped_` are
split at the first `x` after the 8-character head, each side parsed with
`int` when non-empty (width first), and dispatched to `cropped` when the
name starts with `c`, else to `resized`.  Other names fall through to the
default attribute lookup (an `AttributeError`). -/
def getattrDyn (cdnBase : String) (s : FileSt) (name : String) :
    Except Err String :=
  if "resized_".data.isPrefixOf name.data || "cropped_".data.isPrefixOf name.data then
    match partitionX (name.data.drop 8) with
    | (wcs, hcs) =>
      match compParse wcs with
      | .error e => .error e
      | .ok w =>
        match compParse hcs with
        | .error e => .error e
        | .ok h =>
          if name.data.head? = some 'c' then cropped cdnBase s w h
          else resized cdnBase s w h
  else .error .attrError

/- ### FileGroup -/

/-- The group-metadata record returned by `GET /groups/<id>/`: the
ordered `files` list (entries may be null holes) and `datetime_stored`. -/
structure GInfo where
  files : List (Option Info)
  datetime_stored : Option String
  deriving DecidableEq, Repr, Inhabited

/-- The environment of a group handle: `getResp n` is the body of its
n-th `GET /groups/…/`, `putResp n` the body of its n-th
`PUT /groups/…/storage/`, and `cdnBase` is `ucare.cdn_base`. -/
structure GEnv where
  getResp : Nat → GInfo
  putResp : Nat → GInfo
  cdnBase : String

/-- The state of a `FileGroup` handle. -/
structure GroupSt where
  group_id : String
  files_qty : Nat
  info_cache : Option GInfo
  gets : Nat
  puts : Nat
  trace : List Event
  deriving DecidableEq, Repr

/-- Anchored match of `GROUP_ID_REGEX` at the head of the input: a UUID,
a tilde, then one or more digits (greedy); returns the UUID characters,
the digits, and the rest. -/
def matchGroupHead (cs : List Char) : Option (List Char × List Char × List Char) :=
  match matchSlots uuidPattern cs with
  | none => none
  | some (u, r) =>
    match r with
    | '~' :: r2 =>
      let ds := r2.takeWhile Char.isDigit
      if ds.isEmpty then none
      else some (u, ds, r2.dropWhile Char.isDigit)
    | _ => none

/-- Leftmost `re.search` for `GROUP_ID_REGEX`. -/
def groupSearch : List Char → Option (List Char × List Char × List Char)
  | [] => none
  | c :: cs =>
    match matchGroupHead (c :: cs) with
    | some m => some m
    | none => groupSearch cs

/-- `FileGroup.__init__`: search for the `<group-uuid>~<count>` pattern,
fail with `InvalidRequest` when absent or when the parsed count is zero,
else record the matched `group_id` and the count. -/
def groupFromString (s : String) : Except Err GroupSt :=
  match groupSearch s.data with
  | none => .error .invalidRequest
  | some (u, ds, _) =>
    let q := digitsVal ds
    if q = 0 then .error .invalidRequest
    else
      .ok { group_id := String.mk (u ++ '~' :: ds)
          , files_qty := q
          , info_cache := none
          , gets := 0, puts := 0, trace := [] }

/-- `FileGroup.__len__`: the static `_files_qty`. -/
def groupLen (s : GroupSt) : Nat :=
  s.files_qty

/-- `api_uri` of a group: `/groups/<group_id>/`. -/
def groupApiUri (s : GroupSt) : String :=
  "/groups/" ++ s.group_id ++ "/"

/-- `api_storage_uri` of a group: `/groups/<group_id>/storage/`. -/
def groupStorageUri (s : GroupSt) : String :=
  "/groups/" ++ s.group_id ++ "/storage/"

/-- `FileGroup.update_info()`: `GET <api_uri>`, replacing the cache. -/
def groupUpdateInfo (env : GEnv) (s : GroupSt) : GroupSt :=
  { s with info_cache := some (env.getResp s.gets)
         , gets := s.gets + 1
         , trace := .getE (groupApiUri s) :: s.trace }

/-- The lazy `info` property of a group. -/
def groupInfoLazy (env : GEnv) (s : GroupSt) : GInfo × GroupSt :=
  match s.info_cache with
  | some i => (i, s)
  | none => (env.getResp s.gets, groupUpdateInfo env s)

/-- `FileGroup.store()`: return immediately when `is_stored` (a lazy
`info` access), else issue `PUT <api_storage_uri>` and install the
response directly as the new cache. -/
def groupStore (env : GEnv) (s : GroupSt) : GroupSt :=
  match groupInfoLazy env s with
  | (i, s1) =>
    if i.datetime_stored.isSome then s1
    else
      { s1 with info_cache := some (env.putResp s1.puts)
              , puts := s1.puts + 1
              , trace := .putE (groupStorageUri s1) :: s1.trace }

/- ### Concrete sample data used by witnesses and counterexamples -/

/-- A UUID-pattern match starts at no position of `s` at all (bounded,
executable form). -/
def noMatchAllB (s : String) : Bool :=
  (List.range s.data.length).all fun j =>
    (matchSlots uuidPattern (s.data.drop j)).isNone

/-- A freshly-constructed sample handle (no cache, no requests yet). -/
def stA : FileSt :=
  { file_id := "aaaaaaaa-bbbb-cccc-dddd-eeeeeeeeeeee"
  , default_effects := none, cached_url := none, info := none
  , gets := 0, puts := 0, heads := 0, clock := 0, trace := [] }

/-- A metadata record that never reports `on_s3`. -/
def infoPending : Info :=
  { on_s3 := false, last_keep_claim := none, removed := none
  , original_file_url := none, uuid := "aaaaaaaa-bbbb-cccc-dddd-eeeeeeeeeeee" }

/-- A metadata record for a fully stored file. -/
def infoStored : Info :=
  { on_s3 := true, last_keep_claim := some "2013-01-01"
  , removed := none, original_file_url := some "http://f.example/x.jpg"
  , uuid := "aaaaaaaa-bbbb-cccc-dddd-eeeeeeeeeeee" }

/-- A collaborator whose metadata never reports `on_s3`. -/
def envPending : Env :=
  { getResp := fun _ => infoPending, headResp := fun _ => 404
  , cdnBase := "https://ucarecdn.com/" }

/-- A collaborator reporting a stored file whose CDN probe succeeds only
from the 46th attempt on (4.5 s in). -/
def envCdnSlow : Env :=
  { getResp := fun _ => infoStored
  , headResp := fun n => if n < 45 then 404 else 200
  , cdnBase := "https://ucarecdn.com/" }

/-- A collaborator reporting a stored file whose CDN probe would succeed
only from the 52nd attempt on (past the 5 s default deadline). -/
def envCdnTooSlow : Env :=
  { getResp := fun _ => infoStored
  , headResp := fun n => if n < 51 then 404 else 200
  , cdnBase := "https://ucarecdn.com/" }

/-- A collaborator whose CDN probe succeeds immediately. -/
def envCdnFast : Env :=
  { getResp := fun _ => infoStored, headResp := fun _ => 200
  , cdnBase := "https://ucarecdn.com/" }

/-- A collaborator reporting a stored file whose CDN probe never
succeeds. -/
def envStored404 : Env :=
  { getResp := fun _ => infoStored, headResp := fun _ => 404
  , cdnBase := "https://ucarecdn.com/" }

/-- The clock of a successful result (observable total blocking time). -/
def okClock : Except (Err × FileSt) FileSt → Option Nat
  | .ok s => some s.clock
  | .error _ => none

/-- The error kind and clock of a failing result. -/
def errClock : Except (Err × FileSt) FileSt → Option (Err × Nat)
  | .error (e, s) => some (e, s.clock)
  | .ok _ => none

/-- The state `store(wait=True)` reaches against `envCdnFast`: one PUT,
the lazy condition fetch, one CDN probe, and the final refresh. -/
def stFastDone : FileSt :=
  { stA with
      info := some infoStored, gets := 2, puts := 1, heads := 1, clock := 0,
      trace := [.getE "/files/aaaaaaaa-bbbb-cccc-dddd-eeeeeeeeeeee/",
                .headE "https://ucarecdn.com/aaaaaaaa-bbbb-cccc-dddd-eeeeeeeeeeee/",
                .getE "/files/aaaaaaaa-bbbb-cccc-dddd-eeeeeeeeeeee/",
                .putE "/files/aaaaaaaa-bbbb-cccc-dddd-eeeeeeeeeeee/storage/"] }

/-- A concrete handle for the C8 counterexample. -/
def fileC8 : FileSt :=
  { file_id := "bbbbbbbb-bbbb-bbbb-bbbb-bbbbbbbbbbbb"
  , default_effects := none, cached_url := none, info := none
  , gets := 0, puts := 0, heads := 0, clock := 0, trace := [] }

/-- A `cdn_base` that contains no UUID-pattern match itself, but whose
tail together with the head of the handle's UUID forms one. -/
def baseC8 : String := "http://aaaaaaaa-aaaa-aaaa-aaaa-aaaa"

/-- A concrete handle with effects for the C8 amended witness. -/
def fileC8b : FileSt :=
  { file_id := "bbbbbbbb-bbbb-bbbb-bbbb-bbbbbbbbbbbb"
  , default_effects := some "resize/50x50/", cached_url := none
  , info := none, gets := 0, puts := 0, heads := 0, clock := 0, trace := [] }

/-- Group metadata of an already stored group. -/
def gInfoStored : GInfo :=
  { files := [], datetime_stored := some "2013-01-01" }

/-- Group metadata of a not-yet-stored group. -/
def gInfoPending : GInfo :=
  { files := [], datetime_stored := none }

/-- A group collaborator reporting the group stored. -/
def genvStored : GEnv :=
  { getResp := fun _ => gInfoStored, putResp := fun _ => gInfoStored
  , cdnBase := "https://ucarecdn.com/" }

/-- A group collaborator reporting the group not stored. -/
def genvPending : GEnv :=
  { getResp := fun _ => gInfoPending, putResp := fun _ => gInfoStored
  , cdnBase := "https://ucarecdn.com/" }

/-- A freshly-constructed sample group handle. -/
def grpA : GroupSt :=
  { group_id := "aaaaaaaa-bbbb-cccc-dddd-eeeeeeeeeeee~3"
  , files_qty := 3, info_cache := none, gets := 0, puts := 0, trace := [] }

/- ### Lemmas about the pattern matcher and the search -/

/-- `default_effects` is non-truthy when `None` or empty: the input has
no newline character. -/
def noNL (s : String) : Prop := '\n' ∉ s.data

instance (s : String) : Decidable (noNL s) := by
  unfold noNL
  infer_instance

/-- No anchored UUID match starts at any of the first `k` positions of
`s`. -/
def noMatchBelow (k : Nat) (s : String) : Prop :=
  ∀ j < k, matchSlots uuidPattern (s.data.drop j) = none

instance (k : Nat) (s : String) : Decidable (noMatchBelow k s) := by
  unfold noMatchBelow
  infer_instance

theorem patOk_matchSlots {ps : List Slot} {m : List Char}
    (h : patOk ps m = true) :
    ∀ r, matchSlots ps (m ++ r) = some (m, r) := by
  induction ps generalizing m with
  | nil =>
    cases m with
    | nil => intro r; rfl
    | cons c cs => simp [patOk] at h
  | cons p ps ih =>
    cases m with
    | nil => simp [patOk] at h
    | cons c cs =>
      intro r
      simp only [patOk, Bool.and_eq_true] at h
      simp [matchSlots, h.1, ih h.2]

theorem matchSlots_uuid_nil : matchSlots uuidPattern [] = none := rfl

theorem uuidSearch_of_head {cs : List Char} {mr : List Char × List Char}
    (h : matchSlots uuidPattern cs = some mr) :
    uuidSearch cs = some mr := by
  cases cs with
  | nil => rw [matchSlots_uuid_nil] at h; exact absurd h (by simp)
  | cons c cs => simp [uuidSearch, h]

theorem uuidSearch_cons {c : Char} {cs : List Char}
    (h : matchSlots uuidPattern (c :: cs) = none) :
    uuidSearch (c :: cs) = uuidSearch cs := by
  simp [uuidSearch, h]

theorem uuidSearch_append {xs ys : List Char}
    (h : ∀ j < xs.length, matchSlots uuidPattern ((xs ++ ys).drop j) = none) :
    uuidSearch (xs ++ ys) = uuidSearch ys := by
  induction xs with
  | nil => simp
  | cons x xs ih =>
    have h0 := h 0 (by simp)
    simp only [List.drop_zero, List.cons_append] at h0
    simp only [List.cons_append]
    rw [uuidSearch_cons h0]
    exact ih fun j hj => by
      have hx := h (j + 1) (by simp only [List.length_cons]; omega)
      simpa using hx

theorem uuidSearch_none {cs : List Char}
    (h : ∀ j < cs.length, matchSlots uuidPattern (cs.drop j) = none) :
    uuidSearch cs = none := by
  induction cs with
  | nil => rfl
  | cons c cs ih =>
    rw [uuidSearch_cons (by simpa using h 0 (by simp))]
    exact ih fun j hj => by
      have hx := h (j + 1) (by simp only [List.length_cons]; omega)
      simpa using hx

theorem takeLine_of_noNL {cs : List Char} (h : '\n' ∉ cs) :
    takeLine cs = cs := by
  unfold takeLine
  refine List.takeWhile_eq_self_iff.mpr fun c hc => ?_
  simp only [ne_eq, decide_eq_true_eq]
  intro heq
  exact h (heq ▸ hc)

/-- Workhorse: the leftmost UUID match of `xs ++ u ++ tail` is `u` when
no match starts inside `xs` and `u` fits the pattern exactly. -/
theorem uuidSearch_exact {xs u tail : List Char}
    (hno : ∀ j < xs.length, matchSlots uuidPattern ((xs ++ u ++ tail).drop j) = none)
    (hu : patOk uuidPattern u = true) :
    uuidSearch (xs ++ u ++ tail) = some (u, tail) := by
  rw [List.append_assoc] at hno ⊢
  rw [uuidSearch_append hno]
  exact uuidSearch_of_head (patOk_matchSlots hu tail)

theorem dataSep : ("/-/" : String).data = ['/', '-', '/'] := rfl

theorem dataSlash : ("/" : String).data = ['/'] := rfl

theorem dataTilde : ("~" : String).data = ['~'] := rfl

/- ### Lemmas about the group pattern search -/

theorem matchGroupHead_nil : matchGroupHead [] = none := rfl

theorem groupSearch_of_head {cs : List Char}
    {m : List Char × List Char × List Char}
    (h : matchGroupHead cs = some m) : groupSearch cs = some m := by
  cases cs with
  | nil => rw [matchGroupHead_nil] at h; exact absurd h (by simp)
  | cons c cs => simp [groupSearch, h]

theorem groupSearch_cons {c : Char} {cs : List Char}
    (h : matchGroupHead (c :: cs) = none) :
    groupSearch (c :: cs) = groupSearch cs := by
  simp [groupSearch, h]

theorem groupSearch_none {cs : List Char}
    (h : ∀ j < cs.length, matchGroupHead (cs.drop j) = none) :
    groupSearch cs = none := by
  induction cs with
  | nil => rfl
  | cons c cs ih =>
    rw [groupSearch_cons (by simpa using h 0 (by simp))]
    exact ih fun j hj => by
      have hx := h (j + 1) (by simp only [List.length_cons]; omega)
      simpa using hx

theorem matchGroupHead_exact {u ds : List Char}
    (hu : patOk uuidPattern u = true) (hne : ds ≠ [])
    (hd : ∀ c ∈ ds, c.isDigit = true) :
    matchGroupHead (u ++ '~' :: ds) = some (u, ds, []) := by
  unfold matchGroupHead
  rw [patOk_matchSlots hu ('~' :: ds)]
  have ht : ds.takeWhile Char.isDigit = ds :=
    List.takeWhile_eq_self_iff.mpr hd
  have hw : ds.dropWhile Char.isDigit = [] :=
    List.dropWhile_eq_nil_iff.mpr hd
  simp [ht, hw, hne]

/- ### Lemmas about the dimension-accessor dispatch -/

theorem dataX : ("x" : String).data = ['x'] := rfl

theorem partitionX_exact {ws : List Char} (h : 'x' ∉ ws) (hs : List Char) :
    partitionX (ws ++ 'x' :: hs) = (ws, hs) := by
  induction ws with
  | nil => simp [partitionX]
  | cons c cs ih =>
    have hc : ¬ c = 'x' := fun hcx => h (by simp [hcx])
    have ihh := ih (fun hm => h (List.mem_cons_of_mem _ hm))
    simp [partitionX, hc, ihh]

theorem accessorName_data (pre ws hs : String) :
    (pre ++ ws ++ "x" ++ hs).data = pre.data ++ (ws.data ++ 'x' :: hs.data) := by
  simp [String.data_append, dataX]

/-- Reduction of the dynamic accessor for well-formed `resized_…` names:
it dispatches straight to `resized` with the parsed components. -/
theorem getattrDyn_resized_eq (b : String) (s : FileSt) (ws hs : String)
    (hx : 'x' ∉ ws.data) {wo ho : Option Int}
    (hw : compParse ws.data = .ok wo) (hh : compParse hs.data = .ok ho) :
    getattrDyn b s ("resized_" ++ ws ++ "x" ++ hs) = resized b s wo ho := by
  have hdata := accessorName_data "resized_" ws hs
  have hpre : ("resized_".data).isPrefixOf
      ("resized_".data ++ (ws.data ++ 'x' :: hs.data)) = true := by
    rw [List.isPrefixOf_iff_prefix]
    exact List.prefix_append _ _
  have hdrop : ("resized_".data ++ (ws.data ++ 'x' :: hs.data)).drop 8 =
      ws.data ++ 'x' :: hs.data := by
    have h8 : (8 : Nat) = ("resized_".data).length := rfl
    rw [h8]
    exact List.drop_left _ _
  unfold getattrDyn
  rw [hdata, hpre, hdrop, partitionX_exact hx]
  simp only [Bool.true_or, if_true, hw, hh]
  rfl

/-- Reduction of the dynamic accessor for well-formed `cropped_…` names. -/
theorem getattrDyn_cropped_eq (b : String) (s : FileSt) (ws hs : String)
    (hx : 'x' ∉ ws.data) {wo ho : Option Int}
    (hw : compParse ws.data = .ok wo) (hh : compParse hs.data = .ok ho) :
    getattrDyn b s ("cropped_" ++ ws ++ "x" ++ hs) = cropped b s wo ho := by
  have hdata := accessorName_data "cropped_" ws hs
  have hpre : ("cropped_".data).isPrefixOf
      ("cropped_".data ++ (ws.data ++ 'x' :: hs.data)) = true := by
    rw [List.isPrefixOf_iff_prefix]
    exact List.prefix_append _ _
  have hdrop : ("cropped_".data ++ (ws.data ++ 'x' :: hs.data)).drop 8 =
      ws.data ++ 'x' :: hs.data := by
    have h8 : (8 : Nat) = ("cropped_".data).length := rfl
    rw [h8]
    exact List.drop_left _ _
  unfold getattrDyn
  rw [hdata, hpre, hdrop, partitionX_exact hx]
  simp only [Bool.or_true, if_true, hw, hh]
  rfl

/-- Reduction of the dynamic accessor when the width component fails to
parse. -/
theorem getattrDyn_resized_badw (b : String) (s : FileSt) (ws hs : String)
    (hx : 'x' ∉ ws.data) {e : Err} (hw : compParse ws.data = .error e) :
    getattrDyn b s ("resized_" ++ ws ++ "x" ++ hs) = .error e := by
  have hdata := accessorName_data "resized_" ws hs
  have hpre : ("resized_".data).isPrefixOf
      ("resized_".data ++ (ws.data ++ 'x' :: hs.data)) = true := by
    rw [List.isPrefixOf_iff_prefix]
    exact List.prefix_append _ _
  have hdrop : ("resized_".data ++ (ws.data ++ 'x' :: hs.data)).drop 8 =
      ws.data ++ 'x' :: hs.data := by
    have h8 : (8 : Nat) = ("resized_".data).length := rfl
    rw [h8]
    exact List.drop_left _ _
  unfold getattrDyn
  rw [hdata, hpre, hdrop, partitionX_exact hx]
  simp only [Bool.true_or, if_true, hw]

/-- Reduction of the dynamic accessor when the height component fails to
parse (width parses first). -/
theorem getattrDyn_resized_badh (b : String) (s : FileSt) (ws hs : String)
    (hx : 'x' ∉ ws.data) {wo : Option Int} {e : Err}
    (hw : compParse ws.data = .ok wo) (hh : compParse hs.data = .error e) :
    getattrDyn b s ("resized_" ++ ws ++ "x" ++ hs) = .error e := by
  have hdata := accessorName_data "resized_" ws hs
  have hpre : ("resized_".data).isPrefixOf
      ("resized_".data ++ (ws.data ++ 'x' :: hs.data)) = true := by
    rw [List.isPrefixOf_iff_prefix]
    exact List.prefix_append _ _
  have hdrop : ("resized_".data ++ (ws.data ++ 'x' :: hs.data)).drop 8 =
      ws.data ++ 'x' :: hs.data := by
    have h8 : (8 : Nat) = ("resized_".data).length := rfl
    rw [h8]
    exact List.drop_left _ _
  unfold getattrDyn
  rw [hdata, hpre, hdrop, partitionX_exact hx]
  simp only [Bool.true_or, if_true, hw, hh]

/- ### Lemmas about the polling loops -/

@[simp] theorem infoLazy_clock (env : Env) (s : FileSt) :
    (infoLazy env s).2.clock = s.clock := by
  rcases hs : s.info with _ | i <;> simp [infoLazy, hs, updateInfoSt]

@[simp] theorem infoLazy_heads (env : Env) (s : FileSt) :
    (infoLazy env s).2.heads = s.heads := by
  rcases hs : s.info with _ | i <;> simp [infoLazy, hs, updateInfoSt]

@[simp] theorem infoLazy_puts (env : Env) (s : FileSt) :
    (infoLazy env s).2.puts = s.puts := by
  rcases hs : s.info with _ | i <;> simp [infoLazy, hs, updateInfoSt]

@[simp] theorem infoLazy_file_id (env : Env) (s : FileSt) :
    (infoLazy env s).2.file_id = s.file_id := by
  rcases hs : s.info with _ | i <;> simp [infoLazy, hs, updateInfoSt]

@[simp] theorem infoLazy_info (env : Env) (s : FileSt) :
    (infoLazy env s).2.info = some (infoLazy env s).1 := by
  rcases hs : s.info with _ | i <;> simp [infoLazy, hs, updateInfoSt]

/-- The second lazy `info` access of `ensure_on_cdn` returns the value
and state of the first. -/
theorem infoLazy_idem (env : Env) (s : FileSt) :
    infoLazy env (infoLazy env s).2 = infoLazy env s := by
  rcases hs : s.info with _ | i <;> simp [infoLazy, hs, updateInfoSt]

/-- `cdnLoop` against a CDN that never answers 200: it probes once every
tenth of a second until the deadline strictly exceeds `T`, then fails
with `Timeout`. -/
theorem cdnLoop_never {env : Env} (hnever : ∀ n, env.headResp n ≠ 200)
    (start T : Nat) :
    ∀ (fuel : Nat) (s : FileSt), s.clock ≤ start + T + 1 →
      start + T + 1 - s.clock < fuel →
      ∃ s', cdnLoop env start T fuel s = .error (.timeout, s') ∧
        s'.clock = start + T + 1 ∧
        s'.heads = s.heads + (start + T + 1 - s.clock) ∧
        s'.gets = s.gets ∧ s'.puts = s.puts ∧ s'.file_id = s.file_id := by
  intro fuel
  induction fuel with
  | zero => intro s _ hf; omega
  | succ fuel ih =>
    intro s hle hf
    by_cases hgt : s.clock - start > T
    · refine ⟨s, ?_, by omega, by omega, rfl, rfl, rfl⟩
      simp [cdnLoop, hgt]
    · have hcode : ¬ env.headResp s.heads = 200 := hnever _
      have hs1 : (recordHead env s).2.clock = s.clock := rfl
      obtain ⟨s', h1, h2, h3, h4, h5, h6⟩ :=
        ih (sleepTenth (recordHead env s).2)
          (by simp [sleepTenth, recordHead]; omega)
          (by simp [sleepTenth, recordHead]; omega)
      refine ⟨s', ?_, h2, ?_, ?_, ?_, ?_⟩
      · show cdnLoop env start T (fuel + 1) s = _
        simp only [cdnLoop]
        rw [if_neg hgt]
        simp only [recordHead]
        rw [if_neg hcode]
        exact h1
      · rw [h3]
        simp only [sleepTenth, recordHead]
        omega
      · rw [h4]; rfl
      · rw [h5]; rfl
      · rw [h6]; rfl

/-- `cdnLoop` against a CDN that answers 200 at once: a single probe,
no sleep, success. -/
theorem cdnLoop_200 {env : Env} (hall : ∀ n, env.headResp n = 200)
    (start T fuel : Nat) (s : FileSt) (hle : ¬ s.clock - start > T) :
    cdnLoop env start T (fuel + 1) s = .ok (recordHead env s).2 := by
  simp only [cdnLoop]
  rw [if_neg hle]
  simp [recordHead, hall]

/-- Structural facts about a successful `cdnLoop`: it made at least one
probe and touched nothing but `heads`, `clock` and the trace. -/
theorem cdnLoop_ok_inv {env : Env} {start T : Nat} :
    ∀ {fuel : Nat} {s s' : FileSt}, cdnLoop env start T fuel s = .ok s' →
      s.heads < s'.heads ∧ s'.file_id = s.file_id ∧ s'.gets = s.gets ∧
      s'.puts = s.puts ∧ s'.info = s.info := by
  intro fuel
  induction fuel with
  | zero =>
    intro s s' h
    exact absurd h (by simp [cdnLoop])
  | succ fuel ih =>
    intro s s' h
    simp only [cdnLoop] at h
    by_cases hgt : s.clock - start > T
    · rw [if_pos hgt] at h
      exact absurd h (by simp)
    · rw [if_neg hgt] at h
      simp only [recordHead] at h
      by_cases hcode : env.headResp s.heads = 200
      · rw [if_pos hcode, Except.ok.injEq] at h
        subst h
        exact ⟨by simp, by simp, by simp, by simp, by simp⟩
      · rw [if_neg hcode] at h
        obtain ⟨h1, h2, h3, h4, h5⟩ := ih h
        simp [sleepTenth] at h1 h2 h3 h4 h5
        exact ⟨by omega, h2, h3, h4, h5⟩

/-- `storeLoop` against metadata that never satisfies the stored
condition: refresh plus 100ms sleep each round until the deadline
strictly exceeds `T`, then `Timeout`; no `HEAD` or `PUT` is issued. -/
theorem storeLoop_never {env : Env}
    (hnever : ∀ n, storedCond (env.getResp n) = false) (start T : Nat) :
    ∀ (fuel : Nat) (s : FileSt), s.clock ≤ start + T + 1 →
      start + T + 1 - s.clock < fuel →
      (s.info = none ∨ ∃ i, s.info = some i ∧ storedCond i = false) →
      ∃ s', storeLoop env start T fuel s = .error (.timeout, s') ∧
        s'.clock = start + T + 1 ∧ s'.heads = s.heads ∧ s'.puts = s.puts ∧
        s'.file_id = s.file_id := by
  intro fuel
  induction fuel with
  | zero => intro s _ hf _; omega
  | succ fuel ih =>
    intro s hle hf hinv
    have hcond : storedCond (infoLazy env s).1 = false := by
      rcases hx : s.info with _ | j
      · simp only [infoLazy, hx]
        exact hnever _
      · rcases hinv with h0 | ⟨j', hj', hc⟩
        · rw [hx] at h0; exact Option.noConfusion h0
        · rw [hx] at hj'
          injection hj' with hv
          simp only [infoLazy, hx]
          rw [hv]
          exact hc
    have hcond' : ¬ storedCond (infoLazy env s).1 = true := by
      rw [hcond]; exact Bool.false_ne_true
    have hclock : (infoLazy env s).2.clock = s.clock := infoLazy_clock env s
    by_cases hgt : (infoLazy env s).2.clock - start > T
    · refine ⟨(infoLazy env s).2, ?_, by omega, by simp, by simp, by simp⟩
      simp only [storeLoop]
      rw [if_neg hcond', if_pos hgt]
    · have hnext : (sleepTenth (updateInfoSt env (infoLazy env s).2)).clock ≤
          start + T + 1 := by
        simp [sleepTenth, updateInfoSt]
        omega
      have hfnext : start + T + 1 -
          (sleepTenth (updateInfoSt env (infoLazy env s).2)).clock < fuel := by
        simp [sleepTenth, updateInfoSt]
        omega
      have hinv2 : (sleepTenth (updateInfoSt env (infoLazy env s).2)).info
            = none ∨
          ∃ i2, (sleepTenth (updateInfoSt env (infoLazy env s).2)).info =
            some i2 ∧ storedCond i2 = false := by
        right
        exact ⟨env.getResp (infoLazy env s).2.gets,
          by simp [sleepTenth, updateInfoSt], hnever _⟩
      obtain ⟨s', h1, h2, h3, h4, h5⟩ := ih _ hnext hfnext hinv2
      refine ⟨s', ?_, h2, ?_, ?_, ?_⟩
      · simp only [storeLoop]
        rw [if_neg hcond', if_neg hgt]
        exact h1
      · rw [h3]; simp [sleepTenth, updateInfoSt]
      · rw [h4]; simp [sleepTenth, updateInfoSt]
      · rw [h5]; simp [sleepTenth, updateInfoSt]

/-- Structural facts about a successful `storeLoop`: the loop only ends
with metadata satisfying the stored condition, and it issues no `HEAD`
or `PUT`. -/
theorem storeLoop_ok_inv {env : Env} {start T : Nat} :
    ∀ {fuel : Nat} {s s' : FileSt}, storeLoop env start T fuel s = .ok s' →
      s'.heads = s.heads ∧ s'.puts = s.puts ∧ s'.file_id = s.file_id ∧
      ∃ i, s'.info = some i ∧ storedCond i = true := by
  intro fuel
  induction fuel with
  | zero =>
    intro s s' h
    exact absurd h (by simp [storeLoop])
  | succ fuel ih =>
    intro s s' h
    simp only [storeLoop] at h
    by_cases hcond : storedCond (infoLazy env s).1 = true
    · rw [if_pos hcond, Except.ok.injEq] at h
      subst h
      exact ⟨by simp, by simp, by simp,
        ⟨(infoLazy env s).1, by simp, hcond⟩⟩
    · rw [if_neg hcond] at h
      by_cases hgt : (infoLazy env s).2.clock - start > T
      · rw [if_pos hgt] at h
        exact absurd h (by simp)
      · rw [if_neg hgt] at h
        obtain ⟨h1, h2, h3, h4⟩ := ih h
        refine ⟨?_, ?_, ?_, h4⟩
        · rw [h1]; simp [sleepTenth, updateInfoSt]
        · rw [h2]; simp [sleepTenth, updateInfoSt]
        · rw [h3]; simp [sleepTenth, updateInfoSt]

/-- Structural facts about a successful `ensure_on_cdn`: it issued at
least one `HEAD` probe and touched neither `file_id` nor `puts`. -/
theorem ensureOnCdn_ok_inv {env : Env} {s s' : FileSt} {T : Nat}
    (h : ensureOnCdn env s T = .ok s') :
    s.heads < s'.heads ∧ s'.file_id = s.file_id ∧ s'.puts = s.puts := by
  simp only [ensureOnCdn, infoLazy_idem] at h
  by_cases h3 : (!(infoLazy env s).1.on_s3) = true
  · rw [if_pos h3] at h
    exact absurd h (by simp)
  · rw [if_neg h3] at h
    by_cases h4 : (infoLazy env s).1.last_keep_claim.isNone = true
    · rw [if_pos h4] at h
      exact absurd h (by simp)
    · rw [if_neg h4] at h
      obtain ⟨h1, h2, _, h5, _⟩ := cdnLoop_ok_inv h
      refine ⟨?_, ?_, ?_⟩
      · have := infoLazy_heads env s
        omega
      · rw [h2]; simp
      · rw [h5]; simp

/-!  ## Claims  -/

/-- C1.  File construction parsing contract: an input that is a bare
lowercase UUID `u`, or `u` followed by the effects separator and an
effects path `e`, or a full CDN URL embedding either form (a prefix in
which no UUID-pattern match starts), constructs successfully with
`file_id = u` and `default_effects = e` (`none` when there is no effects
segment); an input in which no UUID-pattern match starts anywhere fails
with `InvalidRequest`. -/
theorem claim_C1 :
    (∀ u : String, isUUID u = true →
      ∃ st, fileFromString u = .ok st ∧ st.file_id = u ∧
        st.default_effects = none) ∧
    (∀ u e : String, isUUID u = true → noNL e →
      ∃ st, fileFromString (u ++ "/-/" ++ e) = .ok st ∧ st.file_id = u ∧
        st.default_effects = some e) ∧
    (∀ p u : String, isUUID u = true → noMatchBelow p.data.length (p ++ u) →
      ∃ st, fileFromString (p ++ u) = .ok st ∧ st.file_id = u ∧
        st.default_effects = none) ∧
    (∀ p u e : String, isUUID u = true → noNL e →
      noMatchBelow p.data.length (p ++ u ++ "/-/" ++ e) →
      ∃ st, fileFromString (p ++ u ++ "/-/" ++ e) = .ok st ∧ st.file_id = u ∧
        st.default_effects = some e) ∧
    (∀ s : String, noMatchBelow s.data.length s →
      fileFromString s = .error .invalidRequest) := by
  refine ⟨?_, ?_, ?_, ?_, ?_⟩
  · intro u hu
    have hs : uuidSearch u.data = some (u.data, []) := by
      have h1 := @uuidSearch_exact [] u.data [] (by simp) hu
      simpa using h1
    simp only [fileFromString, fileParse, hs]
    exact ⟨_, rfl, rfl, rfl⟩
  · intro u e hu he
    have hd : (u ++ "/-/" ++ e).data = u.data ++ ('/' :: '-' :: '/' :: e.data) := by
      simp [String.data_append, dataSep]
    have hs : uuidSearch ((u ++ "/-/" ++ e).data) =
        some (u.data, '/' :: '-' :: '/' :: e.data) := by
      rw [hd]
      have h1 :=
        @uuidSearch_exact [] u.data ('/' :: '-' :: '/' :: e.data) (by simp) hu
      simpa using h1
    simp only [fileFromString, fileParse, hs, takeLine_of_noNL he]
    exact ⟨_, rfl, rfl, rfl⟩
  · intro p u hu hno
    have hd : (p ++ u).data = p.data ++ u.data ++ [] := by
      simp [String.data_append]
    have hs : uuidSearch ((p ++ u).data) = some (u.data, []) := by
      rw [hd]
      exact uuidSearch_exact (by rw [← hd]; exact hno) hu
    simp only [fileFromString, fileParse, hs]
    exact ⟨_, rfl, rfl, rfl⟩
  · intro p u e hu he hno
    have hd : (p ++ u ++ "/-/" ++ e).data =
        p.data ++ u.data ++ ('/' :: '-' :: '/' :: e.data) := by
      simp [String.data_append, dataSep]
    have hs : uuidSearch ((p ++ u ++ "/-/" ++ e).data) =
        some (u.data, '/' :: '-' :: '/' :: e.data) := by
      rw [hd]
      exact uuidSearch_exact (by rw [← hd]; exact hno) hu
    simp only [fileFromString, fileParse, hs, takeLine_of_noNL he]
    exact ⟨_, rfl, rfl, rfl⟩
  · intro s hno
    have hs : uuidSearch s.data = none := uuidSearch_none hno
    simp [fileFromString, fileParse, hs]

/-- Witness for C1 at concrete inputs: a bare UUID, a UUID with effects,
both CDN-URL-embedded forms, and a string with no UUID substring. -/
theorem claim_C1_witness :
    (∃ st, fileFromString "aaaaaaaa-bbbb-cccc-dddd-eeeeeeeeeeee" = .ok st ∧
      st.file_id = "aaaaaaaa-bbbb-cccc-dddd-eeeeeeeeeeee" ∧
      st.default_effects = none) ∧
    (∃ st, fileFromString ("aaaaaaaa-bbbb-cccc-dddd-eeeeeeeeeeee" ++ "/-/" ++
        "resize/200x/") = .ok st ∧
      st.file_id = "aaaaaaaa-bbbb-cccc-dddd-eeeeeeeeeeee" ∧
      st.default_effects = some "resize/200x/") ∧
    (∃ st, fileFromString ("https://ucarecdn.com/" ++
        "aaaaaaaa-bbbb-cccc-dddd-eeeeeeeeeeee") = .ok st ∧
      st.file_id = "aaaaaaaa-bbbb-cccc-dddd-eeeeeeeeeeee" ∧
      st.default_effects = none) ∧
    (∃ st, fileFromString ("https://ucarecdn.com/" ++
        "aaaaaaaa-bbbb-cccc-dddd-eeeeeeeeeeee" ++ "/-/" ++ "resize/200x/") =
        .ok st ∧
      st.file_id = "aaaaaaaa-bbbb-cccc-dddd-eeeeeeeeeeee" ∧
      st.default_effects = some "resize/200x/") ∧
    fileFromString "hello world" = .error .invalidRequest :=
  ⟨claim_C1.1 "aaaaaaaa-bbbb-cccc-dddd-eeeeeeeeeeee" (by decide),
   claim_C1.2.1 "aaaaaaaa-bbbb-cccc-dddd-eeeeeeeeeeee" "resize/200x/"
     (by decide) (by decide),
   claim_C1.2.2.1 "https://ucarecdn.com/" "aaaaaaaa-bbbb-cccc-dddd-eeeeeeeeeeee"
     (by decide) (by decide),
   claim_C1.2.2.2.1 "https://ucarecdn.com/"
     "aaaaaaaa-bbbb-cccc-dddd-eeeeeeeeeeee" "resize/200x/"
     (by decide) (by decide) (by decide),
   claim_C1.2.2.2.2 "hello world" (by decide)⟩

/-- C8 counterexample.  `baseC8` contains no UUID pattern, yet
reconstructing a handle from `cdnUrl baseC8 fileC8` captures a straddling
UUID (`aaaaaaaa-aaaa-aaaa-aaaa-aaaabbbbbbbb`) and the recomputed
`cdnUrl` differs from the original: the round-trip claim fails as
stated. -/
theorem claim_C8_counterexample :
    noMatchAllB baseC8 = true ∧
    (fileFromString (cdnUrl baseC8 fileC8)).toOption.map (cdnUrl baseC8) ≠
      some (cdnUrl baseC8 fileC8) := by
  exact ⟨by decide, by decide⟩

/-- C8 amended.  The round-trip holds whenever no UUID-pattern match
starts strictly inside the `cdn_base` part of the produced URL (rather
than merely `cdn_base` containing no UUID pattern), the handle's
`file_id` is a lowercase UUID, and its effects contain no newline:
reconstructing from `cdnUrl` and recomputing yields the identical
string. -/
theorem claim_C8_amended :
    ∀ (b : String) (st : FileSt), isUUID st.file_id = true →
      (∀ e, st.default_effects = some e → noNL e) →
      noMatchBelow b.data.length (cdnUrl b st) →
      ∃ st2, fileFromString (cdnUrl b st) = .ok st2 ∧
        cdnUrl b st2 = cdnUrl b st := by
  intro b st hu hnl hno
  rcases hde : st.default_effects with _ | e
  · have hurl : cdnUrl b st = b ++ st.file_id ++ "/" := by
      simp [cdnUrl, hde]
    rw [hurl] at hno ⊢
    have hd : (b ++ st.file_id ++ "/").data =
        b.data ++ st.file_id.data ++ ['/'] := by
      simp [String.data_append, dataSlash]
    have hs : uuidSearch ((b ++ st.file_id ++ "/").data) =
        some (st.file_id.data, ['/']) := by
      rw [hd]
      exact uuidSearch_exact (by rw [← hd]; exact hno) hu
    simp only [fileFromString, fileParse, hs]
    exact ⟨_, rfl, by simp [cdnUrl]⟩
  · by_cases he0 : e = ""
    · have hurl : cdnUrl b st = b ++ st.file_id ++ "/" := by
        simp [cdnUrl, hde, he0]
      rw [hurl] at hno ⊢
      have hd : (b ++ st.file_id ++ "/").data =
          b.data ++ st.file_id.data ++ ['/'] := by
        simp [String.data_append, dataSlash]
      have hs : uuidSearch ((b ++ st.file_id ++ "/").data) =
          some (st.file_id.data, ['/']) := by
        rw [hd]
        exact uuidSearch_exact (by rw [← hd]; exact hno) hu
      simp only [fileFromString, fileParse, hs]
      exact ⟨_, rfl, by simp [cdnUrl]⟩
    · have hurl : cdnUrl b st = b ++ st.file_id ++ "/-/" ++ e := by
        simp [cdnUrl, hde, he0]
      rw [hurl] at hno ⊢
      have hd : (b ++ st.file_id ++ "/-/" ++ e).data =
          b.data ++ st.file_id.data ++ ('/' :: '-' :: '/' :: e.data) := by
        simp [String.data_append, dataSep]
      have hs : uuidSearch ((b ++ st.file_id ++ "/-/" ++ e).data) =
          some (st.file_id.data, '/' :: '-' :: '/' :: e.data) := by
        rw [hd]
        exact uuidSearch_exact (by rw [← hd]; exact hno) hu
      have hnl' : '\n' ∉ e.data := hnl e hde
      simp only [fileFromString, fileParse, hs, takeLine_of_noNL hnl']
      refine ⟨_, rfl, ?_⟩
      simp [cdnUrl, he0]

/-- Witness for the amended C8 at a concrete base and handle. -/
theorem claim_C8_amended_witness :
    ∃ st2, fileFromString (cdnUrl "https://ucarecdn.com/" fileC8b) = .ok st2 ∧
      cdnUrl "https://ucarecdn.com/" st2 =
        cdnUrl "https://ucarecdn.com/" fileC8b :=
  claim_C8_amended "https://ucarecdn.com/" fileC8b (by decide)
    (by intro e he; simp [fileC8b] at he; rw [← he]; decide) (by decide)

/-- C9.  Group construction: fails with `InvalidRequest` when no
`<group-uuid>~<count>` match exists or when the parsed count is zero;
for every digit string of value at least one it succeeds, `length()`
returns exactly that count, and construction issues no network request. -/
theorem claim_C9 :
    (∀ s : String, (∀ j < s.data.length, matchGroupHead (s.data.drop j) = none) →
      groupFromString s = .error .invalidRequest) ∧
    (∀ u ds : String, isUUID u = true → ds.data ≠ [] →
      (∀ c ∈ ds.data, c.isDigit = true) → digitsVal ds.data = 0 →
      groupFromString (u ++ "~" ++ ds) = .error .invalidRequest) ∧
    (∀ u ds : String, isUUID u = true → ds.data ≠ [] →
      (∀ c ∈ ds.data, c.isDigit = true) → 1 ≤ digitsVal ds.data →
      ∃ st, groupFromString (u ++ "~" ++ ds) = .ok st ∧
        groupLen st = digitsVal ds.data ∧ st.trace = [] ∧
        st.gets = 0 ∧ st.puts = 0) := by
  have hdata : ∀ u ds : String,
      (u ++ "~" ++ ds).data = u.data ++ '~' :: ds.data := by
    intro u ds
    simp [String.data_append, dataTilde]
  have hsearch : ∀ u ds : String, isUUID u = true → ds.data ≠ [] →
      (∀ c ∈ ds.data, c.isDigit = true) →
      groupSearch (u.data ++ '~' :: ds.data) = some (u.data, ds.data, []) :=
    fun u ds hu hne hd => groupSearch_of_head (matchGroupHead_exact hu hne hd)
  refine ⟨?_, ?_, ?_⟩
  · intro s hno
    have hs : groupSearch s.data = none := groupSearch_none hno
    simp [groupFromString, hs]
  · intro u ds hu hne hd h0
    simp [groupFromString, hdata u ds, hsearch u ds hu hne hd, h0]
  · intro u ds hu hne hd h1
    have h0 : ¬ digitsVal ds.data = 0 := by omega
    simp only [groupFromString, hdata u ds, hsearch u ds hu hne hd, h0,
      if_false, ite_false]
    exact ⟨_, rfl, rfl, rfl, rfl, rfl⟩

/-- Witness for C9: no-match input `"hello~3"` fails, count 0 fails,
count 12 succeeds with length 12 and an empty request trace. -/
theorem claim_C9_witness :
    groupFromString "hello" = .error .invalidRequest ∧
    groupFromString ("aaaaaaaa-bbbb-cccc-dddd-eeeeeeeeeeee" ++ "~" ++ "0") =
      .error .invalidRequest ∧
    (∃ st, groupFromString
        ("aaaaaaaa-bbbb-cccc-dddd-eeeeeeeeeeee" ++ "~" ++ "12") = .ok st ∧
      groupLen st = digitsVal "12".data ∧ st.trace = [] ∧
      st.gets = 0 ∧ st.puts = 0) :=
  ⟨claim_C9.1 "hello" (by decide),
   claim_C9.2.1 "aaaaaaaa-bbbb-cccc-dddd-eeeeeeeeeeee" "0"
     (by decide) (by decide) (by decide) (by decide),
   claim_C9.2.2 "aaaaaaaa-bbbb-cccc-dddd-eeeeeeeeeeee" "12"
     (by decide) (by decide) (by decide) (by decide)⟩

/-- C3.  `serialize()` returns the resolved `url` when metadata has
already been fetched and the URL is truthy, and the bare `file_id`
otherwise (in particular when no metadata is cached); in every case it
leaves the handle state — request counters and trace included — exactly
unchanged, so it never costs a network call. -/
theorem claim_C3 :
    ∀ (env : Env) (s : FileSt),
      (serialize env s).2 = s ∧
      (s.info = none → (serialize env s).1 = s.file_id) ∧
      (∀ i, s.info = some i → strTruthy (urlProp env s).1 = true →
        (serialize env s).1 = (urlProp env s).1.getD "") ∧
      (∀ i, s.info = some i → strTruthy (urlProp env s).1 = false →
        (serialize env s).1 = s.file_id) := by
  intro env s
  rcases hi : s.info with _ | i
  · simp [serialize, hi]
  · have hurl : (urlProp env s).2 = s := by
      unfold urlProp
      by_cases hc : strTruthy s.cached_url
      · simp [hc]
      · simp [hc, infoLazy, hi]
    by_cases ht : strTruthy (urlProp env s).1
    · refine ⟨?_, ?_, ?_, ?_⟩
      · simp [serialize, hi, ht, hurl]
      · intro h0; exact absurd h0 (by simp)
      · intro _ _ _; simp [serialize, hi, ht, hurl]
      · intro _ _ hf; exact absurd ht (by simp [hf])
    · refine ⟨?_, ?_, ?_, ?_⟩
      · simp [serialize, hi, ht, hurl]
      · intro h0; exact absurd h0 (by simp)
      · intro _ _ htt; exact absurd htt (by simp [ht])
      · intro _ _ _; simp [serialize, hi, ht]

/-- Witness for C3: a fresh handle serializes to the bare id; a handle
with fetched metadata and a resolvable URL serializes to that URL;
neither changes the state. -/
theorem claim_C3_witness :
    (serialize envPending stA).2 = stA ∧
    (serialize envPending stA).1 = stA.file_id ∧
    (serialize envPending { stA with info := some infoStored }).1 =
      (urlProp envPending { stA with info := some infoStored }).1.getD "" :=
  ⟨(claim_C3 envPending stA).1,
   (claim_C3 envPending stA).2.1 (by decide),
   (claim_C3 envPending { stA with info := some infoStored }).2.2.1
     infoStored (by decide) (by decide)⟩

/-- C5 counterexample.  On a handle whose `info_cache` is empty while the
server reports the group stored, `store()`'s `is_stored` check itself
lazily fetches: `isStored` holds, yet one `GET` request is issued and
`info_cache` changes — not zero network calls as claimed. -/
theorem claim_C5_counterexample :
    (groupInfoLazy genvStored grpA).1.datetime_stored.isSome = true ∧
    (groupStore genvStored grpA).gets = 1 ∧
    (groupStore genvStored grpA).info_cache ≠ grpA.info_cache ∧
    (groupStore genvStored grpA).trace = [Event.getE (groupApiUri grpA)] := by
  exact ⟨by decide, by decide, by decide, by decide⟩

/-- C5 amended.  When `info_cache` is already populated and reports the
group stored, `store()` is a no-op: zero network calls, state unchanged.
When it is populated but not stored, `store()` issues exactly one
`PUT <api_storage_uri>` and installs the response as the new cache with
no separate refresh.  When the cache is empty, the `is_stored` check
first issues one lazy `GET`, then proceeds the same way on the fetched
record. -/
theorem claim_C5_amended :
    ∀ (env : GEnv) (s : GroupSt),
      (∀ i, s.info_cache = some i → i.datetime_stored.isSome = true →
        groupStore env s = s) ∧
      (∀ i, s.info_cache = some i → i.datetime_stored.isSome = false →
        groupStore env s =
          { s with info_cache := some (env.putResp s.puts)
                 , puts := s.puts + 1
                 , trace := .putE (groupStorageUri s) :: s.trace }) ∧
      (s.info_cache = none →
        (env.getResp s.gets).datetime_stored.isSome = true →
        groupStore env s = groupUpdateInfo env s) ∧
      (s.info_cache = none →
        (env.getResp s.gets).datetime_stored.isSome = false →
        groupStore env s =
          { s with info_cache := some (env.putResp s.puts)
                 , gets := s.gets + 1
                 , puts := s.puts + 1
                 , trace := .putE (groupStorageUri s) ::
                     .getE (groupApiUri s) :: s.trace }) := by
  intro env s
  refine ⟨?_, ?_, ?_, ?_⟩
  · intro i hi hst
    simp [groupStore, groupInfoLazy, hi, hst]
  · intro i hi hst
    simp [groupStore, groupInfoLazy, hi, hst]
  · intro hi hst
    simp [groupStore, groupInfoLazy, hi, hst]
  · intro hi hst
    simp [groupStore, groupInfoLazy, groupUpdateInfo, groupStorageUri,
      groupApiUri, hi, hst]

/-- Witness for the amended C5: a populated-and-stored handle is left
untouched; a fresh handle against a not-stored server gains exactly one
`GET` then one `PUT`. -/
theorem claim_C5_amended_witness :
    groupStore genvStored { grpA with info_cache := some gInfoStored } =
      { grpA with info_cache := some gInfoStored } ∧
    groupStore genvPending grpA =
      { grpA with
          info_cache := some (genvPending.putResp grpA.puts),
          gets := grpA.gets + 1,
          puts := grpA.puts + 1,
          trace := .putE (groupStorageUri grpA) ::
            .getE (groupApiUri grpA) :: grpA.trace } :=
  ⟨(claim_C5_amended genvStored { grpA with info_cache := some gInfoStored }).1
     gInfoStored rfl (by decide),
   (claim_C5_amended genvPending grpA).2.2.2 rfl (by decide)⟩

/-- C6.  The dynamic dimension accessors dispatch to `resized`/`cropped`
with the parsed integer components (an absent side passed as `none`):
`resized_<W>x<H>` equals `resized W H` and `cropped_<W>x<H>` equals
`cropped W H` whenever the components parse; `resized_300x200` equals
`resized 300 200`; `cropped_x200` fails with `InvalidRequest`; and a
present component that does not parse as an integer fails with
`InvalidRequest` (width checked first, then height). -/
theorem claim_C6 :
    (∀ (b : String) (s : FileSt) (ws hs : String), 'x' ∉ ws.data →
      ∀ wo ho : Option Int, compParse ws.data = .ok wo →
        compParse hs.data = .ok ho →
        getattrDyn b s ("resized_" ++ ws ++ "x" ++ hs) = resized b s wo ho) ∧
    (∀ (b : String) (s : FileSt) (ws hs : String), 'x' ∉ ws.data →
      ∀ wo ho : Option Int, compParse ws.data = .ok wo →
        compParse hs.data = .ok ho →
        getattrDyn b s ("cropped_" ++ ws ++ "x" ++ hs) = cropped b s wo ho) ∧
    (∀ (b : String) (s : FileSt),
      getattrDyn b s "resized_300x200" = resized b s (some 300) (some 200)) ∧
    (∀ (b : String) (s : FileSt),
      getattrDyn b s "cropped_x200" = .error .invalidRequest) ∧
    (∀ (b : String) (s : FileSt) (ws hs : String), 'x' ∉ ws.data →
      ws.data ≠ [] → pyInt ws.data = none →
      getattrDyn b s ("resized_" ++ ws ++ "x" ++ hs) =
        .error .invalidRequest) ∧
    (∀ (b : String) (s : FileSt) (ws hs : String), 'x' ∉ ws.data →
      ∀ wo : Option Int, compParse ws.data = .ok wo →
        hs.data ≠ [] → pyInt hs.data = none →
        getattrDyn b s ("resized_" ++ ws ++ "x" ++ hs) =
          .error .invalidRequest) := by
  refine ⟨?_, ?_, ?_, ?_, ?_, ?_⟩
  · intro b s ws hs hx wo ho hw hh
    exact getattrDyn_resized_eq b s ws hs hx hw hh
  · intro b s ws hs hx wo ho hw hh
    exact getattrDyn_cropped_eq b s ws hs hx hw hh
  · intro b s
    have h := @getattrDyn_resized_eq b s "300" "200" (by decide)
      (some 300) (some 200) (by decide) (by decide)
    have hstr : ("resized_" ++ "300" ++ "x" ++ "200" : String) =
        "resized_300x200" := by decide
    rw [hstr] at h
    exact h
  · intro b s
    have h := @getattrDyn_cropped_eq b s "" "200" (by decide)
      none (some 200) (by decide) (by decide)
    have hstr : ("cropped_" ++ "" ++ "x" ++ "200" : String) =
        "cropped_x200" := by decide
    rw [hstr] at h
    rw [h]
    rfl
  · intro b s ws hs hx hne hpy
    refine getattrDyn_resized_badw b s ws hs hx ?_
    simp [compParse, hpy, hne]
  · intro b s ws hs hx wo hw hne hpy
    refine getattrDyn_resized_badh b s ws hs hx hw ?_
    simp [compParse, hpy, hne]

/-- Witness for C6 at concrete names: `resized_300x200` dispatches to
`resized 300 200`, and the non-integer width of `resized_abcx200` fails
with `InvalidRequest`. -/
theorem claim_C6_witness :
    getattrDyn "https://ucarecdn.com/" stA ("resized_" ++ "300" ++ "x" ++ "200") =
      resized "https://ucarecdn.com/" stA (some 300) (some 200) ∧
    getattrDyn "https://ucarecdn.com/" stA ("resized_" ++ "abc" ++ "x" ++ "200") =
      .error .invalidRequest :=
  ⟨claim_C6.1 "https://ucarecdn.com/" stA "300" "200" (by decide)
     (some 300) (some 200) (by decide) (by decide),
   claim_C6.2.2.2.2.1 "https://ucarecdn.com/" stA "abc" "200" (by decide)
     (by decide) (by decide)⟩

/-- C7 counterexample.  `cropped` uses Python truthiness, so a zero
width — although given — raises `InvalidRequest` instead of returning
the crop URL the claim promises. -/
theorem claim_C7_counterexample :
    cropped "https://ucarecdn.com/" stA (some 0) (some 200) =
      .error .invalidRequest ∧
    cropped "https://ucarecdn.com/" stA (some 0) (some 200) ≠
      .ok (cdnUrl "https://ucarecdn.com/" stA ++ "-/crop/" ++ intStr 0 ++
        "x" ++ intStr 200 ++ "/") := by
  exact ⟨by decide, by decide⟩

/-- C7 amended.  `cropped(width, height)` fails with `InvalidRequest`
unless both width and height are given *and non-zero* (Python
truthiness); when both are truthy it returns the `cdn_url` followed by
`crop/<w>x<h>/`. -/
theorem claim_C7_amended :
    ∀ (b : String) (s : FileSt) (w h : Option Int),
      (intTruthy w = true → intTruthy h = true →
        cropped b s w h = .ok (cdnUrl b s ++ "-/crop/" ++
          intStr (w.getD 0) ++ "x" ++ intStr (h.getD 0) ++ "/")) ∧
      ((intTruthy w = false ∨ intTruthy h = false) →
        cropped b s w h = .error .invalidRequest) := by
  intro b s w h
  constructor
  · intro hw hh
    simp [cropped, hw, hh]
  · intro hor
    rcases hor with h0 | h0 <;> simp [cropped, h0]

/-- Witness for the amended C7: both dimensions truthy yields the crop
URL; a missing width yields `InvalidRequest`. -/
theorem claim_C7_amended_witness :
    cropped "https://ucarecdn.com/" stA (some 300) (some 200) =
      .ok (cdnUrl "https://ucarecdn.com/" stA ++ "-/crop/" ++
        intStr ((some (300 : Int)).getD 0) ++ "x" ++
        intStr ((some (200 : Int)).getD 0) ++ "/") ∧
    cropped "https://ucarecdn.com/" stA none (some 200) =
      .error .invalidRequest :=
  ⟨(claim_C7_amended "https://ucarecdn.com/" stA (some 300) (some 200)).1
     (by decide) (by decide),
   (claim_C7_amended "https://ucarecdn.com/" stA none (some 200)).2
     (Or.inl (by decide))⟩

/-- C2.  `store(wait, timeout)`: with `wait` and a collaborator whose
metadata never reports `on_s3`, the polling loop (refresh + one-tenth
second sleep per round) raises `Timeout` once the elapsed time strictly
exceeds the deadline, issuing no `HEAD`; on success in the wait branch
`ensure_on_cdn` ran (at least one `HEAD` probe was issued) and the last
request before returning is the final `refreshInfo` `GET`; without
`wait` the operation is exactly the `PUT` followed by one final
`refreshInfo`. -/
theorem claim_C2 :
    (∀ (env : Env) (s : FileSt) (T : Nat),
      (∀ n, (env.getResp n).on_s3 = false) → s.info = none →
      ∃ s', store env s true T = .error (.timeout, s') ∧
        s'.clock = s.clock + (T + 1) ∧ s'.heads = s.heads) ∧
    (∀ (env : Env) (s : FileSt) (T : Nat) (s' : FileSt),
      store env s true T = .ok s' →
      s.heads < s'.heads ∧ s'.trace.head? = some (.getE (apiUri s))) ∧
    (∀ (env : Env) (s : FileSt) (T : Nat),
      store env s false T =
        .ok (updateInfoSt env (recordPut (storageUri s) s))) := by
  refine ⟨?_, ?_, ?_⟩
  · intro env s T hnever hinfo
    have hnc : ∀ n, storedCond (env.getResp n) = false := fun n => by
      simp [storedCond, hnever n]
    have hle : (recordPut (storageUri s) s).clock ≤
        (recordPut (storageUri s) s).clock + T + 1 := by omega
    have hinv : (recordPut (storageUri s) s).info = none ∨
        ∃ i, (recordPut (storageUri s) s).info = some i ∧
          storedCond i = false := by
      left
      simp [recordPut, hinfo]
    obtain ⟨s', h1, h2, h3, _, _⟩ :=
      storeLoop_never hnc (recordPut (storageUri s) s).clock T (T + 2)
        (recordPut (storageUri s) s) hle (by omega) hinv
    refine ⟨s', ?_, ?_, ?_⟩
    · simp only [store, if_true, h1]
    · rw [h2]
      have hr : (recordPut (storageUri s) s).clock = s.clock := rfl
      omega
    · rw [h3]; simp [recordPut]
  · intro env s T s' h
    simp only [store, if_true] at h
    rcases hl : storeLoop env (recordPut (storageUri s) s).clock T (T + 2)
        (recordPut (storageUri s) s) with e | s2
    · rw [hl] at h; exact absurd h (by simp)
    · rw [hl] at h
      dsimp only at h
      rcases he : ensureOnCdn env s2 50 with e2 | s3
      · rw [he] at h; exact absurd h (by simp)
      · rw [he] at h
        rw [Except.ok.injEq] at h
        obtain ⟨hh2, _, hf2, _⟩ := storeLoop_ok_inv hl
        obtain ⟨hh3, hf3, _⟩ := ensureOnCdn_ok_inv he
        constructor
        · have hrp : (recordPut (storageUri s) s).heads = s.heads := rfl
          have : s'.heads = s3.heads := by rw [← h]; simp [updateInfoSt]
          omega
        · have hfid : s3.file_id = s.file_id := by
            rw [hf3, hf2]
            rfl
          rw [← h]
          simp [updateInfoSt, apiUri, hfid]
  · intro env s T
    rfl

/-- Witness for C2: against `envPending` (never `on_s3`) a fresh handle
with `timeout=1` (ten ticks) raises `Timeout` after 1.1 seconds of
polling with no `HEAD` issued; a successful `store(wait=True)` against
`envCdnFast` issued a `HEAD` and ends on the final refresh `GET`; the
non-waiting branch is `PUT` plus one refresh. -/
theorem claim_C2_witness :
    (∃ s', store envPending stA true 10 = .error (.timeout, s') ∧
      s'.clock = stA.clock + (10 + 1) ∧ s'.heads = stA.heads) ∧
    (stA.heads < stFastDone.heads ∧
      stFastDone.trace.head? = some (.getE (apiUri stA))) ∧
    store envPending stA false 10 =
      .ok (updateInfoSt envPending (recordPut (storageUri stA) stA)) :=
  ⟨claim_C2.1 envPending stA 10 (fun _ => rfl) rfl,
   claim_C2.2.1 envCdnFast stA 10 stFastDone (by decide),
   claim_C2.2.2 envPending stA 10⟩

/-- C4.  `ensure_on_cdn(timeout)` checks its two preconditions once,
without retry: it fails with `InvalidRequest` immediately when
`is_on_s3` is false, issuing no `HEAD` probe; likewise when the file is
not stored; when both hold it polls `HEAD` on `cdn_url`, sleeping one
tenth of a second between attempts, raising `Timeout` once the deadline
is strictly exceeded (never-200 CDN), and returning after a single probe
when the CDN answers 200. -/
theorem claim_C4 :
    ∀ (env : Env) (s : FileSt) (T : Nat),
      ((infoLazy env s).1.on_s3 = false →
        ensureOnCdn env s T = .error (.invalidRequest, (infoLazy env s).2) ∧
        (infoLazy env s).2.heads = s.heads) ∧
      ((infoLazy env s).1.on_s3 = true →
        (infoLazy env s).1.last_keep_claim = none →
        ensureOnCdn env s T = .error (.invalidRequest, (infoLazy env s).2) ∧
        (infoLazy env s).2.heads = s.heads) ∧
      ((infoLazy env s).1.on_s3 = true →
        (infoLazy env s).1.last_keep_claim.isSome = true →
        (∀ n, env.headResp n ≠ 200) →
        ∃ s', ensureOnCdn env s T = .error (.timeout, s') ∧
          s'.heads = s.heads + (T + 1) ∧ s'.clock = s.clock + (T + 1)) ∧
      ((infoLazy env s).1.on_s3 = true →
        (infoLazy env s).1.last_keep_claim.isSome = true →
        (∀ n, env.headResp n = 200) →
        ensureOnCdn env s T = .ok (recordHead env (infoLazy env s).2).2) := by
  intro env s T
  refine ⟨?_, ?_, ?_, ?_⟩
  · intro h3
    refine ⟨?_, by simp⟩
    simp only [ensureOnCdn, infoLazy_idem]
    rw [if_pos (by simp [h3])]
  · intro h3 h4
    refine ⟨?_, by simp⟩
    simp only [ensureOnCdn, infoLazy_idem]
    rw [if_neg (by simp [h3]), if_pos (by simp [h4])]
  · intro h3 h4 hnever
    have hnn : ¬ (infoLazy env s).1.last_keep_claim.isNone = true := by
      rw [Option.isNone_iff_eq_none]
      intro hx
      rw [hx] at h4
      exact absurd h4 (by simp)
    obtain ⟨s', h1, h2, hh, _, _, _⟩ :=
      cdnLoop_never hnever (infoLazy env s).2.clock T (T + 2)
        (infoLazy env s).2 (by omega) (by omega)
    refine ⟨s', ?_, ?_, ?_⟩
    · simp only [ensureOnCdn, infoLazy_idem]
      rw [if_neg (by simp [h3]), if_neg hnn]
      exact h1
    · rw [hh]
      have h5 := infoLazy_heads env s
      have h6 := infoLazy_clock env s
      omega
    · rw [h2]
      have h6 := infoLazy_clock env s
      omega
  · intro h3 h4 hall
    have hnn : ¬ (infoLazy env s).1.last_keep_claim.isNone = true := by
      rw [Option.isNone_iff_eq_none]
      intro hx
      rw [hx] at h4
      exact absurd h4 (by simp)
    simp only [ensureOnCdn, infoLazy_idem]
    rw [if_neg (by simp [h3]), if_neg hnn]
    exact cdnLoop_200 hall _ T (T + 1) _ (by omega)

/-- Witness for C4: a never-`on_s3` collaborator yields immediate
`InvalidRequest` with zero `HEAD`s; a stored file with a dead CDN times
out after `T + 1` probes; a stored file with a live CDN succeeds after
one probe. -/
theorem claim_C4_witness :
    (ensureOnCdn envPending stA 50 =
      .error (.invalidRequest, (infoLazy envPending stA).2) ∧
      (infoLazy envPending stA).2.heads = stA.heads) ∧
    (∃ s', ensureOnCdn envStored404 stA 1 = .error (.timeout, s') ∧
      s'.heads = stA.heads + (1 + 1) ∧ s'.clock = stA.clock + (1 + 1)) ∧
    ensureOnCdn envCdnFast stA 5 =
      .ok (recordHead envCdnFast (infoLazy envCdnFast stA).2).2 :=
  ⟨(claim_C4 envPending stA 50).1 (by decide),
   (claim_C4 envStored404 stA 1).2.2.1 (by decide) (by decide)
     (fun _ => by simp [envStored404]),
   (claim_C4 envCdnFast stA 5).2.2.2 (by decide) (by decide)
     (fun _ => by simp [envCdnFast])⟩

/-- C10.  The `ensure_on_cdn` step inside `store(wait=True, timeout=t)`
runs with its own default 5-second deadline, independent of `t`: with
`t = 1` s and a CDN that appears after 4.5 s, `store` succeeds after a
total blocking time of 4.5 s — exceeding `t` without a `Timeout`; with
`t = 1000` s and a CDN that would appear only after 5.1 s, `store` still
raises `Timeout` at 5.1 s, because the CDN wait is bounded by the
5-second default, not by `t`. -/
theorem claim_C10 :
    okClock (store envCdnSlow stA true 10) = some 45 ∧ 10 < 45 ∧
    errClock (store envCdnTooSlow stA true 10000) = some (.timeout, 51) := by
  exact ⟨by decide, by decide, by decide⟩

end Uploadcare
